import Mathlib

/-!
# github_tracker: `src/pages/Home/Home.jsx`

A shallow embedding of the `Home` component's logic: the pagination-exhausting
fetch loop (`fetchAll`), the dual fetch and its state updates (`fetchData`), the
classification filter (`filterData`) and the display slice (`displayData`),
followed by the properties proved about them.

JavaScript values are embedded as follows.
* Strings are `String`; the empty string is the only falsy string.
* Page numbers, page indices and lengths are natural numbers.
* An optional property (`item.pull_request`, `merged_at`) is an `Option`.
* `octokit.request` either resolves with the page's `items` or rejects with an
  error whose `message` is a string: `Except String (List α)`.
* The `while` loop of `fetchAll` is given a fuel bound; running out of fuel is
  `none`, so a result `some _` means that the loop has returned.
-/

namespace GithubTracker

/-! ## Data model -/

/-- The `pull_request` sub-object of a search result; `merged_at` is `null`
(`none`) or a timestamp string. -/
structure PullRequest where
  merged_at : Option String
deriving DecidableEq, Repr

/-- One item of `response.data.items`, with the fields that `Home` reads. -/
structure Item where
  id : Nat
  title : String
  html_url : String
  repository_url : String
  state : String
  created_at : String
  pull_request : Option PullRequest
deriving DecidableEq, Repr

/-- The value of `item.pull_request?.merged_at`: `undefined`/`null` is `none`. -/
def Item.mergedAt (item : Item) : Option String :=
  match item.pull_request with
  | none => none
  | some pr => pr.merged_at

/-- JavaScript truthiness of an optional string: `undefined`, `null` and `''`
are falsy, every other string is truthy. -/
def truthy : Option String → Bool
  | none => false
  | some s => decide (s ≠ "")

/-! ## Built-in array methods -/

/-- The built-in `Array.prototype.filter`: walk the array from index 0, appending each
element whose callback result is truthy to the (initially empty) result. -/
def arrayFilter {α : Type} (callback : α → Bool) (xs : List α) : List α :=
  xs.foldl (fun kept x => if callback x then kept ++ [x] else kept) []

/-- The built-in `Array.prototype.slice(start, end)` for non-negative integer arguments:
`k = min(start, len)`, `final = min(end, len)`, then the elements at indices
`k, k+1, ..., final-1` are copied in that order (none when `final ≤ k`). -/
def arraySlice {α : Type} (xs : List α) (start stop : Nat) : List α :=
  let k := min start xs.length
  let final := min stop xs.length
  (List.range' k (final - k)).filterMap (fun i => xs[i]?)

/-! ## `fetchAll` -/

/-- The loop of `fetchAll` (lines 58-65), with the request log made explicit.
`page` and `results` are the loop variables, `log` lists the page numbers
requested so far. A rejected request propagates as `.error`. -/
def fetchLoop {α : Type} (request : Nat → Except String (List α)) :
    Nat → Nat → List α → List Nat → Option (Except String (List α) × List Nat)
  | 0, _, _, _ => none
  | fuel + 1, page, results, log =>
    match request page with
    | .error e => some (.error e, log ++ [page])
    | .ok items =>
      let results := results ++ items
      if items.length = 100 then
        fetchLoop request fuel (page + 1) results (log ++ [page])
      else
        some (.ok results, log ++ [page])

/-- The helper `fetchAll(url, params)` (lines 53-68): `page = 1`, `results = []`, then the
loop. `request page` stands for `octokit.request(url, { ...params, page })`. -/
def fetchAll {α : Type} (request : Nat → Except String (List α)) (fuel : Nat) :
    Option (Except String (List α) × List Nat) :=
  fetchLoop request fuel 1 [] []

/-! ## Component state -/

/-- The `useState` variables of `Home` (lines 31-41). -/
structure State where
  username : String
  token : String
  issues : List Item
  prs : List Item
  loading : Bool
  error : String
  tab : Nat
  page : Nat
  rowsPerPage : Nat
  issueFilter : String
  prFilter : String
deriving DecidableEq, Repr

/-- Line 28. -/
def ROWS_PER_PAGE : Nat := 10

/-- The initial values given to `useState` (lines 31-41). -/
def initialState : State where
  username := ""
  token := ""
  issues := []
  prs := []
  loading := false
  error := ""
  tab := 0
  page := 0
  rowsPerPage := ROWS_PER_PAGE
  issueFilter := "all"
  prFilter := "all"

/-- The search client: `new Octokit({ auth })` and then
`request('GET /search/issues', { q, sort, order, per_page: 100, page })`, as a
function of the token, the query string and the page number. -/
abbrev Octokit := String → String → Nat → Except String (List Item)

/-- The query of the issues fetch (line 72). -/
def issuesQuery (username : String) : String := "author:" ++ username ++ " is:issue"

/-- The query of the pull-request fetch (line 80). -/
def prsQuery (username : String) : String := "author:" ++ username ++ " is:pr"

/-- A request as the search client sees it: the query string and the page. -/
abbrev Request := String × Nat

/-- The callback `fetchData` (lines 43-94) run to completion on state `s`. The result is the
state after all of its `set...` calls together with the requests made, or
`none` when a fetch loop has not returned within `fuel` iterations. -/
def fetchData (octokit : Octokit) (fuel : Nat) (s : State) : Option (State × List Request) :=
  if s.username = "" ∨ s.token = "" then some (s, [])
  else
    -- setLoading(true); setError('')
    let s₁ := { s with loading := true, error := "" }
    let qi := issuesQuery s.username
    let qp := prsQuery s.username
    match fetchAll (octokit s.token qi) fuel with
    | none => none
    | some (.error message, log₁) =>
      -- catch: setError(err.message); finally: setLoading(false)
      some ({ s₁ with error := message, loading := false }, log₁.map (Prod.mk qi))
    | some (.ok issuesResponse, log₁) =>
      match fetchAll (octokit s.token qp) fuel with
      | none => none
      | some (.error message, log₂) =>
        some ({ s₁ with error := message, loading := false },
          log₁.map (Prod.mk qi) ++ log₂.map (Prod.mk qp))
      | some (.ok prsResponse, log₂) =>
        -- setIssues(issuesResponse); setPrs(prsResponse); finally: setLoading(false)
        some ({ s₁ with issues := issuesResponse, prs := prsResponse, loading := false },
          log₁.map (Prod.mk qi) ++ log₂.map (Prod.mk qp))

/-! ## Filtering and slicing -/

/-- The function `filterData(data, filterType)` (lines 109-120). -/
def filterData (data : List Item) (filterType : String) : List Item :=
  if filterType = "open" then
    arrayFilter (fun item => decide (item.state = "open")) data
  else if filterType = "closed" then
    arrayFilter (fun item => decide (item.state = "closed") && !truthy item.mergedAt) data
  else if filterType = "merged" then
    arrayFilter (fun item => truthy item.mergedAt) data
  else
    data

/-- The constant `currentData` (lines 122-124). -/
def currentData (s : State) : List Item :=
  if s.tab = 0 then filterData s.issues s.issueFilter else filterData s.prs s.prFilter

/-- The slice of line 126 as a function of the filtered data, the page index
and the page size. -/
def displaySlice (data : List Item) (page rowsPerPage : Nat) : List Item :=
  arraySlice data (page * rowsPerPage) ((page + 1) * rowsPerPage)

/-- The constant `displayData` (line 126). -/
def displayData (s : State) : List Item :=
  displaySlice (currentData s) s.page s.rowsPerPage

/-- The `count` passed to `TablePagination` (line 224). -/
def paginationCount (s : State) : Nat := (currentData s).length

/-! ## Events -/

/-- The event handlers of `Home`. -/
inductive Action where
  /-- The `onChange` of the user name field (line 136). -/
  | setUsername (value : String)
  /-- The `onChange` of the token field (line 143). -/
  | setToken (value : String)
  /-- The handler `handleSubmit` (lines 96-99). -/
  | submit
  /-- The handler `handleChangePage` (lines 101-103). -/
  | changePage (newPage : Nat)
  /-- The `onChange` of `Tabs` (line 166). -/
  | changeTab (newValue : Nat)
  /-- The `onChange` of the filter `Select` (line 176). -/
  | changeFilter (value : String)
deriving DecidableEq, Repr

/-- The handler `handleSubmit` (lines 96-99): `fetchData()` run to completion,
keeping the state. -/
def handleSubmit (octokit : Octokit) (fuel : Nat) (s : State) : Option State :=
  (fetchData octokit fuel s).map Prod.fst

/-- The handler `handleChangePage` (lines 101-103). -/
def handleChangePage (s : State) (newPage : Nat) : State := { s with page := newPage }

/-- Line 166: `setTab(newValue)`. -/
def changeTab (s : State) (newValue : Nat) : State := { s with tab := newValue }

/-- Line 176: `tab === 0 ? setIssueFilter(value) : setPrFilter(value)`. -/
def changeFilter (s : State) (value : String) : State :=
  if s.tab = 0 then { s with issueFilter := value } else { s with prFilter := value }

/-- One event, handled to completion. -/
def step (octokit : Octokit) (fuel : Nat) (s : State) : Action → Option State
  | .setUsername value => some { s with username := value }
  | .setToken value => some { s with token := value }
  | .submit => handleSubmit octokit fuel s
  | .changePage newPage => some (handleChangePage s newPage)
  | .changeTab newValue => some (changeTab s newValue)
  | .changeFilter value => some (changeFilter s value)

/-- A sequence of events, handled one after the other. -/
def run (octokit : Octokit) (fuel : Nat) : State → List Action → Option State
  | s, [] => some s
  | s, a :: rest =>
    match step octokit fuel s a with
    | none => none
    | some s' => run octokit fuel s' rest

/-! ## The specification's vocabulary -/

/-- The filter selectors of the data model. -/
inductive FilterSelector where
  | all | open | closed | merged
deriving DecidableEq, Repr

/-- The string a selector is in the `Select` menu (lines 179-182). -/
def FilterSelector.value : FilterSelector → String
  | .all => "all"
  | .open => "open"
  | .closed => "closed"
  | .merged => "merged"

/-- The merge timestamp of an item is present (section 3 of the specification):
the item carries a `pull_request` object whose `merged_at` field holds a
timestamp, a timestamp being a non-empty string. Stated on the fields of the
record, not through the lookup and truthiness test that `filterData` makes. -/
def Item.hasMergeTimestamp (item : Item) : Prop :=
  ∃ pr t, item.pull_request = some pr ∧ pr.merged_at = some t ∧ t ≠ ""

instance Item.decidableHasMergeTimestamp (item : Item) :
    Decidable item.hasMergeTimestamp :=
  match hpr : item.pull_request with
  | none => isFalse (fun ⟨_, _, h, _, _⟩ => by rw [hpr] at h; cases h)
  | some pr =>
    match hm : pr.merged_at with
    | none => isFalse (fun ⟨_, _, h, hmerged, _⟩ => by
        rw [hpr] at h
        cases h
        rw [hm] at hmerged
        cases hmerged)
    | some t =>
      if ht : t = "" then
        isFalse (fun ⟨_, _, h, hmerged, hne⟩ => by
          rw [hpr] at h
          cases h
          rw [hm] at hmerged
          cases hmerged
          exact hne ht)
      else isTrue ⟨pr, t, hpr, hm, ht⟩

/-- What each selector keeps, in the words of the specification (section 4.3). -/
def FilterSelector.keeps : FilterSelector → Item → Prop
  | .all, _ => True
  | .open, item => item.state = "open"
  | .closed, item => item.state = "closed" ∧ ¬ item.hasMergeTimestamp
  | .merged, item => item.hasMergeTimestamp

instance (sel : FilterSelector) (item : Item) : Decidable (sel.keeps item) := by
  cases sel <;> unfold FilterSelector.keeps <;> infer_instance

/-- The item invariant of the data model (section 3): the lifecycle state is
`open` or `closed`, and an item with a merge timestamp is in `closed` state. -/
def Item.WellFormed (item : Item) : Prop :=
  (item.state = "open" ∨ item.state = "closed") ∧
    (item.hasMergeTimestamp → item.state = "closed")

/-- The number of display pages of `n` items at `s` items a page: `n / s`
rounded up. -/
def pageCount (n s : Nat) : Nat := (n + s - 1) / s

/-- The pages in which a search over `dataset` is served, 100 items a page:
page `p ≥ 1` holds the items at positions `(p-1)*100` up to `p*100`. -/
def servePages {α : Type} (dataset : List α) (p : Nat) : List α :=
  (dataset.drop ((p - 1) * 100)).take 100

instance (item : Item) : Decidable item.WellFormed := by
  unfold Item.WellFormed; infer_instance

/-! ## Sample data -/

/-- A search result with the given id, state and `pull_request` object. -/
def sampleItem (id : Nat) (state : String) (pr : Option PullRequest) : Item where
  id := id
  title := "Fix the build"
  html_url := "https://github.com/octocat/hello/issues/1"
  repository_url := "https://api.github.com/repos/octocat/hello"
  state := state
  created_at := "2024-01-01T00:00:00Z"
  pull_request := pr

/-- Eleven issues: one open, ten closed. -/
def sampleIssues : List Item :=
  sampleItem 0 "open" none ::
    (List.range 10).map (fun i => sampleItem (i + 1) "closed" none)

/-- A merged pull request: state `closed`, `merged_at` set. -/
def sampleMergedPr : Item :=
  sampleItem 20 "closed" (some ⟨some "2024-02-02T00:00:00Z"⟩)

/-- A pull request closed without merge: state `closed`, `merged_at` null. -/
def sampleClosedPr : Item := sampleItem 21 "closed" (some ⟨none⟩)

/-- An open pull request. -/
def sampleOpenPr : Item := sampleItem 22 "open" (some ⟨none⟩)

/-- Three pull requests: merged, closed without merge, open. -/
def samplePrs : List Item := [sampleMergedPr, sampleClosedPr, sampleOpenPr]

/-- A search client that serves `sampleIssues` and `samplePrs` for `octocat`,
each on page 1, and empty pages otherwise. -/
def sampleOctokit : Octokit := fun _ q page =>
  if page = 1 ∧ q = "author:octocat is:issue" then .ok sampleIssues
  else if page = 1 ∧ q = "author:octocat is:pr" then .ok samplePrs
  else .ok []

/-- A search client that serves `sampleIssues` for the issues query and rejects
every request of the pull-request query. -/
def failingOctokit : Octokit := fun _ q page =>
  if q = "author:octocat is:issue" then (if page = 1 then .ok sampleIssues else .ok [])
  else .error "API rate limit exceeded"

/-- A state with credentials entered, earlier fetch results on display, and the
tab, filters and page index away from their defaults. -/
def sampleState : State where
  username := "octocat"
  token := "ghp_token"
  issues := [sampleItem 99 "open" none]
  prs := [sampleItem 98 "closed" none]
  loading := false
  error := ""
  tab := 1
  page := 3
  rowsPerPage := ROWS_PER_PAGE
  issueFilter := "closed"
  prFilter := "merged"

/-- Pages of a search client: two full pages, then pages of 50 items. -/
def samplePages (p : Nat) : List Nat :=
  if p ≤ 2 then List.replicate 100 p else List.replicate 50 p

/-! ## The fetch loop -/

/-- While the pages are full (100 items) the loop keeps requesting: after `m`
full pages it is at page `page + m` with their items appended. -/
theorem fetchLoop_full_pages {α : Type} (request : Nat → Except String (List α))
    (pages : Nat → List α) (m : Nat) :
    ∀ (fuel page : Nat) (results : List α) (log : List Nat),
      (∀ j, j < m → request (page + j) = .ok (pages (page + j)) ∧
        (pages (page + j)).length = 100) →
      fetchLoop request (fuel + m) page results log =
        fetchLoop request fuel (page + m) (results ++ (List.range' page m).flatMap pages)
          (log ++ List.range' page m) := by
  induction m with
  | zero => intro fuel page results log _; simp
  | succ m ih =>
    intro fuel page results log h
    have h0 := h 0 (Nat.succ_pos m)
    simp only [Nat.add_zero] at h0
    have hrest : ∀ j, j < m → request (page + 1 + j) = .ok (pages (page + 1 + j)) ∧
        (pages (page + 1 + j)).length = 100 := by
      intro j hj
      have := h (j + 1) (Nat.succ_lt_succ hj)
      rwa [show page + (j + 1) = page + 1 + j by omega] at this
    rw [show fuel + (m + 1) = (fuel + m) + 1 by omega, fetchLoop, h0.1]
    simp only [h0.2, if_true]
    rw [ih fuel (page + 1) _ _ hrest, List.range'_succ]
    simp [List.append_assoc, Nat.add_assoc, Nat.add_comm 1 m]

/-- The loop returns at the first page that is not full. -/
theorem fetchLoop_stops {α : Type} (request : Nat → Except String (List α))
    (fuel page : Nat) (results items : List α) (log : List Nat)
    (hreq : request page = .ok items) (hlen : items.length ≠ 100) :
    fetchLoop request (fuel + 1) page results log =
      some (.ok (results ++ items), log ++ [page]) := by
  rw [fetchLoop, hreq]
  simp [hlen]

/-- The loop propagates a rejected request. -/
theorem fetchLoop_fails {α : Type} (request : Nat → Except String (List α))
    (fuel page : Nat) (results : List α) (log : List Nat) (e : String)
    (hreq : request page = .error e) :
    fetchLoop request (fuel + 1) page results log = some (.error e, log ++ [page]) := by
  rw [fetchLoop, hreq]

/-- The fetch over `m` full pages followed by a page that is not full. -/
theorem fetchAll_of_full_then_short {α : Type} (request : Nat → Except String (List α))
    (pages : Nat → List α) (m fuel : Nat) (hfuel : m + 1 ≤ fuel)
    (hfull : ∀ j, j < m → request (1 + j) = .ok (pages (1 + j)) ∧
      (pages (1 + j)).length = 100)
    (hreq : request (1 + m) = .ok (pages (1 + m))) (hlen : (pages (1 + m)).length ≠ 100) :
    fetchAll request fuel =
      some (.ok ((List.range' 1 (m + 1)).flatMap pages), List.range' 1 (m + 1)) := by
  obtain ⟨f, rfl⟩ : ∃ f, fuel = (f + 1) + m := ⟨fuel - (m + 1), by omega⟩
  rw [fetchAll, fetchLoop_full_pages request pages m (f + 1) 1 [] [] hfull,
    fetchLoop_stops request f (1 + m) _ _ _ hreq hlen, List.range'_concat]
  simp

/-- The fetch over `m` full pages followed by a rejected request. -/
theorem fetchAll_of_full_then_error {α : Type} (request : Nat → Except String (List α))
    (pages : Nat → List α) (m fuel : Nat) (e : String) (hfuel : m + 1 ≤ fuel)
    (hfull : ∀ j, j < m → request (1 + j) = .ok (pages (1 + j)) ∧
      (pages (1 + j)).length = 100)
    (hreq : request (1 + m) = .error e) :
    fetchAll request fuel = some (.error e, List.range' 1 (m + 1)) := by
  obtain ⟨f, rfl⟩ : ∃ f, fuel = (f + 1) + m := ⟨fuel - (m + 1), by omega⟩
  rw [fetchAll, fetchLoop_full_pages request pages m (f + 1) 1 [] [] hfull,
    fetchLoop_fails request f (1 + m) _ _ e hreq, List.range'_concat]
  simp

/-- Claim C1. For a search client whose pages hold at most 100 items each and one
of whose pages holds fewer than 100, let `k` be the smallest page number whose
page holds fewer than 100 items. Then `fetchAll` (given at least `k` loop
iterations) returns, having requested exactly the pages `1, 2, ..., k` in that
order, the concatenation of the pages `1..k` in increasing order; the length of
the result is the sum of the item counts of these pages. -/
theorem fetchAll_requests_until_first_short_page {α : Type} (pages : Nat → List α)
    (hmax : ∀ p, 1 ≤ p → (pages p).length ≤ 100)
    (hshort : ∃ p, 1 ≤ p ∧ (pages p).length < 100) :
    ∃ k, (1 ≤ k ∧ (pages k).length < 100 ∧
        ∀ j, 1 ≤ j → (pages j).length < 100 → k ≤ j) ∧
      ∀ fuel, k ≤ fuel →
        fetchAll (fun p => Except.ok (pages p)) fuel =
            some (.ok ((List.range' 1 k).flatMap pages), List.range' 1 k) ∧
          ((List.range' 1 k).flatMap pages).length =
            ((List.range' 1 k).map (fun p => (pages p).length)).sum := by
  classical
  refine ⟨Nat.find hshort, ⟨(Nat.find_spec hshort).1, (Nat.find_spec hshort).2, ?_⟩, ?_⟩
  · intro j hj hlt
    exact Nat.find_min' hshort ⟨hj, hlt⟩
  · intro fuel hfuel
    have hk1 := (Nat.find_spec hshort).1
    have hklt := (Nat.find_spec hshort).2
    obtain ⟨m, hm⟩ : ∃ m, Nat.find hshort = 1 + m := ⟨Nat.find hshort - 1, by omega⟩
    have hfull : ∀ j, j < m →
        (fun p => Except.ok (pages p) : Nat → Except String (List α)) (1 + j) =
          .ok (pages (1 + j)) ∧ (pages (1 + j)).length = 100 := by
      intro j hj
      refine ⟨rfl, ?_⟩
      have hnot : ¬ (1 ≤ 1 + j ∧ (pages (1 + j)).length < 100) :=
        Nat.find_min hshort (by omega)
      have := hmax (1 + j) (by omega)
      have h1 : 1 ≤ 1 + j := by omega
      by_contra hne
      exact hnot ⟨h1, by omega⟩
    have hlen : (pages (1 + m)).length ≠ 100 := by rw [← hm]; omega
    refine ⟨?_, ?_⟩
    · rw [hm, Nat.add_comm 1 m]
      exact fetchAll_of_full_then_short _ pages m fuel (by omega) hfull rfl hlen
    · rw [List.length_flatMap]
      rfl

/-! ## A dataset served in pages of 100 -/

/-- The number of items on a served page. -/
theorem length_servePages {α : Type} (dataset : List α) (p : Nat) :
    (servePages dataset p).length = min 100 (dataset.length - (p - 1) * 100) := by
  simp [servePages]

/-- The first `m` served pages, concatenated, are the first `m * 100` items. -/
theorem flatMap_servePages {α : Type} (dataset : List α) (m : Nat) :
    (List.range' 1 m).flatMap (servePages dataset) = dataset.take (m * 100) := by
  induction m with
  | zero => simp
  | succ m ih =>
    have hmul : (m + 1) * 100 = m * 100 + 100 := by omega
    rw [List.range'_concat, List.flatMap_append, ih, hmul, List.take_add]
    simp [servePages]

/-- Claim C2. A dataset of `n` items served in consecutive pages of 100 is
returned unchanged by `fetchAll` (given at least `n / 100 + 1` loop iterations),
which requests exactly the pages `1, ..., n / 100 + 1`; that number is the
smallest `k` with `n < k * 100`. For 250 items these are 3 requests, answered
with 100, 100 and 50 items; for exactly 100 items they are 2 requests, answered
with 100 and 0 items. -/
theorem fetchAll_servePages {α : Type} (dataset : List α) (fuel : Nat)
    (hfuel : dataset.length / 100 + 1 ≤ fuel) :
    fetchAll (fun p => Except.ok (servePages dataset p)) fuel =
        some (.ok dataset, List.range' 1 (dataset.length / 100 + 1)) ∧
      (List.range' 1 (dataset.length / 100 + 1)).length = dataset.length / 100 + 1 ∧
      (dataset.length < (dataset.length / 100 + 1) * 100 ∧
        ∀ k, dataset.length < k * 100 → dataset.length / 100 + 1 ≤ k) ∧
      (dataset.length = 250 →
        List.range' 1 (dataset.length / 100 + 1) = [1, 2, 3] ∧
        [1, 2, 3].map (fun p => (servePages dataset p).length) = [100, 100, 50]) ∧
      (dataset.length = 100 →
        List.range' 1 (dataset.length / 100 + 1) = [1, 2] ∧
        [1, 2].map (fun p => (servePages dataset p).length) = [100, 0]) := by
  have hlt : dataset.length < (dataset.length / 100 + 1) * 100 := by omega
  refine ⟨?_, by simp, ⟨hlt, fun k hk => by omega⟩, ?_, ?_⟩
  · have hfull : ∀ j, j < dataset.length / 100 →
        (fun p => Except.ok (servePages dataset p) : Nat → Except String (List α)) (1 + j) =
          .ok (servePages dataset (1 + j)) ∧ (servePages dataset (1 + j)).length = 100 := by
      intro j hj
      refine ⟨rfl, ?_⟩
      rw [length_servePages]
      have : 1 + j - 1 = j := by omega
      rw [this]
      omega
    have hlen : (servePages dataset (1 + dataset.length / 100)).length ≠ 100 := by
      rw [length_servePages]
      have : 1 + dataset.length / 100 - 1 = dataset.length / 100 := by omega
      rw [this]
      omega
    rw [fetchAll_of_full_then_short _ (servePages dataset) (dataset.length / 100) fuel hfuel
      hfull rfl hlen, flatMap_servePages, List.take_of_length_le (by omega)]
  · intro h
    simp [length_servePages, h]
    decide
  · intro h
    simp [length_servePages, h]
    decide

/-! ## The filter -/

/-- The accumulating walk of `arrayFilter`, started from any accumulator. -/
theorem foldl_arrayFilter {α : Type} (callback : α → Bool) (xs kept : List α) :
    xs.foldl (fun kept x => if callback x then kept ++ [x] else kept) kept =
      kept ++ xs.filter callback := by
  induction xs generalizing kept with
  | nil => simp
  | cons x xs ih =>
    rw [List.foldl_cons, ih]
    by_cases hx : callback x = true <;> simp [hx]

/-- The built-in `Array.prototype.filter` keeps the elements that satisfy the callback, in
their original order. -/
theorem arrayFilter_eq_filter {α : Type} (callback : α → Bool) (xs : List α) :
    arrayFilter callback xs = xs.filter callback := by
  simp [arrayFilter, foldl_arrayFilter]

/-- Three filters of which every element passes exactly one split the list. -/
theorem filter_three_perm {α : Type} (p q r : α → Bool) (l : List α)
    (h : ∀ x ∈ l, (p x = true ∧ q x = false ∧ r x = false) ∨
      (p x = false ∧ q x = true ∧ r x = false) ∨
      (p x = false ∧ q x = false ∧ r x = true)) :
    List.Perm (l.filter p ++ l.filter q ++ l.filter r) l := by
  induction l with
  | nil => simp
  | cons x xs ih =>
    have ih' := ih (fun y hy => h y (List.mem_cons_of_mem x hy))
    rcases h x (List.mem_cons_self x xs) with ⟨hp, hq, hr⟩ | ⟨hp, hq, hr⟩ | ⟨hp, hq, hr⟩
    · simp only [List.filter_cons, hp, hq, hr, if_true, List.cons_append]
      exact List.Perm.cons x ih'
    · simp only [List.filter_cons, hp, hq, hr, if_true, List.append_assoc, List.cons_append]
      refine List.Perm.trans List.perm_middle (List.Perm.cons x ?_)
      simpa [List.append_assoc] using ih'
    · simp only [List.filter_cons, hp, hq, hr, if_true]
      refine List.Perm.trans List.perm_middle (List.Perm.cons x ?_)
      simpa [List.append_assoc] using ih'

/-- The test `item.pull_request?.merged_at` of `filterData` is truthy exactly
when the item carries a `pull_request` object whose `merged_at` holds a
non-empty string. -/
theorem truthy_mergedAt_iff (item : Item) :
    truthy item.mergedAt = true ↔ item.hasMergeTimestamp := by
  unfold Item.hasMergeTimestamp Item.mergedAt
  cases hpr : item.pull_request with
  | none => simp [truthy]
  | some pr =>
    show truthy pr.merged_at = true ↔ _
    cases hm : pr.merged_at with
    | none =>
      constructor
      · intro h
        simp [truthy] at h
      · rintro ⟨pr', t, hpr', ht, _⟩
        cases hpr'
        rw [hm] at ht
        cases ht
    | some t =>
      constructor
      · intro h
        exact ⟨pr, t, rfl, hm, by simpa [truthy] using h⟩
      · rintro ⟨pr', t', hpr', ht, hne⟩
        cases hpr'
        rw [hm] at ht
        cases ht
        simpa [truthy] using hne

/-- The truthiness test of `filterData` as the decision of the data model's
property. -/
theorem truthy_mergedAt_eq_decide (item : Item) :
    truthy item.mergedAt = decide item.hasMergeTimestamp := by
  by_cases h : item.hasMergeTimestamp
  · rw [decide_eq_true h]
    exact (truthy_mergedAt_iff item).2 h
  · rw [decide_eq_false h]
    cases ht : truthy item.mergedAt with
    | false => rfl
    | true => exact absurd ((truthy_mergedAt_iff item).1 ht) h

/-- The three callbacks of `filterData` on a well-formed item: exactly one of
them is truthy. -/
theorem wellFormed_exactly_one (item : Item) (hwf : item.WellFormed) :
    (decide (item.state = "open") = true ∧
        (decide (item.state = "closed") && !truthy item.mergedAt) = false ∧
        truthy item.mergedAt = false) ∨
      (decide (item.state = "open") = false ∧
        (decide (item.state = "closed") && !truthy item.mergedAt) = true ∧
        truthy item.mergedAt = false) ∨
      (decide (item.state = "open") = false ∧
        (decide (item.state = "closed") && !truthy item.mergedAt) = false ∧
        truthy item.mergedAt = true) := by
  obtain ⟨hstate, hmerged⟩ := hwf
  have hne : ("closed" : String) ≠ "open" := by decide
  rw [← truthy_mergedAt_iff] at hmerged
  cases hm : truthy item.mergedAt with
  | true =>
    have hc := hmerged hm
    right; right
    simp [hc, hne]
  | false =>
    rcases hstate with ho | hc
    · left
      simp [ho, hne.symm]
    · right; left
      simp [hc, hne]

/-- Claim C4. For every dataset and every selector, `filterData` returns exactly
the items that the selector keeps (all: every item; open: state is open;
closed: state is closed and no merge timestamp; merged: merge timestamp
present), in their original order, as a subsequence of the input; with `all` it
is the identity, and an empty dataset gives an empty result. In terms of the
record's fields: merged returns the items of the dataset that carry a
`pull_request` object whose `merged_at` holds a non-empty string, closed the
items in state closed that carry none, open the items in state open. -/
theorem filterData_keeps (data : List Item) (sel : FilterSelector) :
    filterData data sel.value = data.filter (fun item => decide (sel.keeps item)) ∧
      (filterData data sel.value).Sublist data ∧
      (∀ item, item ∈ filterData data sel.value ↔ item ∈ data ∧ sel.keeps item) ∧
      filterData data FilterSelector.all.value = data ∧
      filterData [] sel.value = [] ∧
      (∀ item, item ∈ filterData data "merged" ↔ item ∈ data ∧
        ∃ pr t, item.pull_request = some pr ∧ pr.merged_at = some t ∧ t ≠ "") ∧
      (∀ item, item ∈ filterData data "closed" ↔ item ∈ data ∧ item.state = "closed" ∧
        ¬ ∃ pr t, item.pull_request = some pr ∧ pr.merged_at = some t ∧ t ≠ "") ∧
      (∀ item, item ∈ filterData data "open" ↔ item ∈ data ∧ item.state = "open") := by
  have hall : filterData data FilterSelector.all.value = data := by
    have h1 : ("all" : String) ≠ "open" := by decide
    have h2 : ("all" : String) ≠ "closed" := by decide
    have h3 : ("all" : String) ≠ "merged" := by decide
    simp [filterData, FilterSelector.value, h1, h2, h3]
  have heq : ∀ (sel : FilterSelector) (d : List Item),
      filterData d sel.value = d.filter (fun item => decide (sel.keeps item)) := by
    intro sel d
    cases sel with
    | all =>
      have h1 : ("all" : String) ≠ "open" := by decide
      have h2 : ("all" : String) ≠ "closed" := by decide
      have h3 : ("all" : String) ≠ "merged" := by decide
      simp [filterData, FilterSelector.value, FilterSelector.keeps, h1, h2, h3]
    | «open» =>
      simp [filterData, FilterSelector.value, FilterSelector.keeps, arrayFilter_eq_filter]
    | closed =>
      have h1 : ("closed" : String) ≠ "open" := by decide
      simp only [filterData, FilterSelector.value, FilterSelector.keeps, arrayFilter_eq_filter,
        h1, if_false, if_true]
      apply List.filter_congr
      intro item _
      rw [truthy_mergedAt_eq_decide]
      by_cases hstate : item.state = "closed" <;>
        by_cases hmerged : item.hasMergeTimestamp <;> simp [hstate, hmerged]
    | merged =>
      have h1 : ("merged" : String) ≠ "open" := by decide
      have h2 : ("merged" : String) ≠ "closed" := by decide
      simp only [filterData, FilterSelector.value, FilterSelector.keeps, arrayFilter_eq_filter,
        h1, h2, if_false, if_true]
      apply List.filter_congr
      intro item _
      exact truthy_mergedAt_eq_decide item
  have hmem : ∀ (sel : FilterSelector) (item : Item),
      item ∈ filterData data sel.value ↔ item ∈ data ∧ sel.keeps item := by
    intro sel item
    rw [heq]
    simp [List.mem_filter]
  refine ⟨heq sel data, ?_, hmem sel, hall, ?_, ?_, ?_, ?_⟩
  · rw [heq]
    exact List.filter_sublist data
  · rw [heq]
    rfl
  · intro item
    exact hmem .merged item
  · intro item
    exact hmem .closed item
  · intro item
    exact hmem .open item

/-- Claim C3. For a dataset of well-formed items (state open or closed; a merge
timestamp only in closed state), the results of `filterData` with open, closed
and merged are pairwise disjoint and together are the dataset: an item is in the
dataset exactly when one of the three returns it, and the three results
together are a rearrangement of the dataset. A closed item with a merge
timestamp (a `pull_request` object whose `merged_at` holds a non-empty string)
is excluded by open and by closed and included by merged. -/
theorem filterData_partition (data : List Item) (hwf : ∀ item ∈ data, item.WellFormed) :
    List.Disjoint (filterData data "open") (filterData data "closed") ∧
      List.Disjoint (filterData data "open") (filterData data "merged") ∧
      List.Disjoint (filterData data "closed") (filterData data "merged") ∧
      (∀ item, item ∈ data ↔ item ∈ filterData data "open" ∨
        item ∈ filterData data "closed" ∨ item ∈ filterData data "merged") ∧
      List.Perm (filterData data "open" ++ filterData data "closed" ++
        filterData data "merged") data ∧
      (∀ item ∈ data, item.state = "closed" →
        (∃ pr t, item.pull_request = some pr ∧ pr.merged_at = some t ∧ t ≠ "") →
        item ∉ filterData data "open" ∧ item ∉ filterData data "closed" ∧
          item ∈ filterData data "merged") := by
  have h1 : ("closed" : String) ≠ "open" := by decide
  have h2 : ("merged" : String) ≠ "open" := by decide
  have h3 : ("merged" : String) ≠ "closed" := by decide
  have ho : filterData data "open" =
      data.filter (fun item => decide (item.state = "open")) := by
    simp [filterData, arrayFilter_eq_filter]
  have hc : filterData data "closed" =
      data.filter (fun item => decide (item.state = "closed") && !truthy item.mergedAt) := by
    simp [filterData, arrayFilter_eq_filter, h1]
  have hm : filterData data "merged" = data.filter (fun item => truthy item.mergedAt) := by
    simp [filterData, arrayFilter_eq_filter, h2, h3]
  rw [ho, hc, hm]
  have hone := fun item hitem => wellFormed_exactly_one item (hwf item hitem)
  refine ⟨?_, ?_, ?_, ?_, filter_three_perm _ _ _ data hone, ?_⟩
  · intro item hi hj
    rw [List.mem_filter] at hi hj
    rcases hone item hi.1 with h | h | h <;> simp_all
  · intro item hi hj
    rw [List.mem_filter] at hi hj
    rcases hone item hi.1 with h | h | h <;> simp_all
  · intro item hi hj
    rw [List.mem_filter] at hi hj
    rcases hone item hi.1 with h | h | h <;> simp_all
  · intro item
    simp only [List.mem_filter]
    constructor
    · intro hi
      rcases hone item hi with h | h | h
      · exact Or.inl ⟨hi, h.1⟩
      · exact Or.inr (Or.inl ⟨hi, h.2.1⟩)
      · exact Or.inr (Or.inr ⟨hi, h.2.2⟩)
    · rintro (h | h | h) <;> exact h.1
  · intro item hi hclosed hfields
    have hmerged : truthy item.mergedAt = true := (truthy_mergedAt_iff item).2 hfields
    simp only [List.mem_filter]
    refine ⟨?_, ?_, hi, hmerged⟩
    · rintro ⟨_, hopen⟩
      rw [hclosed] at hopen
      exact absurd (of_decide_eq_true hopen) h1
    · rintro ⟨_, hcl⟩
      simp [hmerged] at hcl

/-! ## The display slice -/

/-- Copying the `c` elements from index `k` on, when they all exist. -/
theorem filterMap_range'_getElem? {α : Type} (xs : List α) (c : Nat) :
    ∀ k, k + c ≤ xs.length →
      (List.range' k c).filterMap (fun i => xs[i]?) = (xs.drop k).take c := by
  induction c with
  | zero => intro k _; simp
  | succ c ih =>
    intro k hk
    have hlt : k < xs.length := by omega
    rw [List.range'_succ, List.filterMap_cons, List.getElem?_eq_getElem hlt,
      List.drop_eq_getElem_cons hlt, List.take_succ_cons, ih (k + 1) (by omega)]

/-- The built-in `slice(start, end)` is the part of the array from index `start` up to, not
including, index `end`, clipped to the array. -/
theorem arraySlice_eq_take_drop {α : Type} (xs : List α) (start stop : Nat) :
    arraySlice xs start stop = (xs.drop start).take (stop - start) := by
  unfold arraySlice
  simp only
  rw [filterMap_range'_getElem? xs _ _ (by omega)]
  by_cases hstart : start ≤ xs.length
  · rw [Nat.min_eq_left hstart, List.take_eq_take]
    simp only [List.length_drop]
    omega
  · have hlen : xs.length ≤ start := by omega
    rw [Nat.min_eq_right hlen, List.drop_of_length_le hlen, List.drop_of_length_le (le_refl _)]
    simp

/-- The display slice is the `rowsPerPage` items from `page * rowsPerPage` on. -/
theorem displaySlice_eq (data : List Item) (page rowsPerPage : Nat) :
    displaySlice data page rowsPerPage =
      (data.drop (page * rowsPerPage)).take rowsPerPage := by
  rw [displaySlice, arraySlice_eq_take_drop]
  congr 1
  rw [Nat.succ_mul]
  omega

/-- Claim C5. For every filtered dataset, page index `p` and page size `s`, the
display slice is the contiguous run of the items at the positions
`p*s, ..., p*s + s - 1` that exist in the dataset: it has
`min s (length - p*s)` items, its `i`-th item is the dataset's item at position
`p*s + i`, and it is empty when `p*s` is at or past the dataset's length. The
count given to the pagination control is the length of the filtered dataset of
the active tab, which can differ from the length of the unfiltered one. -/
theorem displaySlice_contiguous :
    (∀ (data : List Item) (p s : Nat),
      displaySlice data p s = (data.drop (p * s)).take s ∧
      (displaySlice data p s).length = min s (data.length - p * s) ∧
      (∀ i, i < (displaySlice data p s).length →
        (displaySlice data p s)[i]? = data[p * s + i]?) ∧
      (data.length ≤ p * s → displaySlice data p s = [])) ∧
    (∀ st : State, displayData st = displaySlice (currentData st) st.page st.rowsPerPage ∧
      paginationCount st = (currentData st).length ∧
      currentData st =
        (if st.tab = 0 then filterData st.issues st.issueFilter
          else filterData st.prs st.prFilter)) ∧
    (∃ st : State, st.tab = 0 ∧ paginationCount st = 0 ∧ st.issues.length = 1) := by
  refine ⟨?_, fun st => ⟨rfl, rfl, rfl⟩, ?_⟩
  · intro data p s
    rw [displaySlice_eq]
    refine ⟨rfl, by simp, ?_, ?_⟩
    · intro i hi
      rw [List.length_take] at hi
      rw [List.getElem?_take_of_lt (by omega), List.getElem?_drop]
    · intro h
      rw [List.drop_of_length_le h, List.take_nil]
  · refine ⟨{ initialState with
      issues := [⟨1, "t", "u", "r", "closed", "c", none⟩], issueFilter := "open" }, rfl, ?_, rfl⟩
    have hne : ("closed" : String) ≠ "open" := by decide
    simp [paginationCount, currentData, filterData, arrayFilter, initialState, hne]

/-- The first `m` display pages, concatenated, are the first `m * s` items. -/
theorem flatMap_displaySlice (data : List Item) (s m : Nat) :
    (List.range m).flatMap (fun p => displaySlice data p s) = data.take (m * s) := by
  induction m with
  | zero => simp
  | succ m ih =>
    have hmul : (m + 1) * s = m * s + s := Nat.succ_mul m s
    rw [List.range_succ, List.flatMap_append, ih, hmul, List.take_add]
    simp [displaySlice_eq]

/-- The display pages reach the end of the data, and the one before the last
does not. -/
theorem pageCount_bounds (n s : Nat) (hs : 0 < s) :
    n ≤ pageCount n s * s ∧ (0 < n → (pageCount n s - 1) * s < n) := by
  unfold pageCount
  have h1 := Nat.div_add_mod (n + s - 1) s
  have h2 := Nat.mod_lt (n + s - 1) hs
  constructor
  · rw [Nat.mul_comm]
    omega
  · intro hn
    have hpos : 0 < (n + s - 1) / s := Nat.div_pos (by omega) hs
    rw [Nat.sub_mul, Nat.one_mul, Nat.mul_comm]
    have hle : s ≤ s * ((n + s - 1) / s) := Nat.le_mul_of_pos_right s hpos
    omega

/-- Claim C9. For a filtered dataset of `n` items and a page size `s > 0`, the
display slices of the page indices `0, ..., ceil(n/s) - 1`, concatenated in
that order, are the dataset. Every slice holds at most `s` items and every slice
but the last holds exactly `s`; the item at position `j` of slice `p` is the
dataset's item at position `p*s + j`, and every position of the dataset lies on
exactly one of these pages. -/
theorem displaySlice_pages_cover (data : List Item) (s : Nat) (hs : 0 < s) :
    (List.range (pageCount data.length s)).flatMap (fun p => displaySlice data p s) = data ∧
      (∀ p, (displaySlice data p s).length ≤ s) ∧
      (∀ p, p + 1 < pageCount data.length s → (displaySlice data p s).length = s) ∧
      (∀ p j, j < (displaySlice data p s).length →
        (displaySlice data p s)[j]? = data[p * s + j]?) ∧
      (∀ i, i < data.length → ∃! p, p < pageCount data.length s ∧
        p * s ≤ i ∧ i < p * s + (displaySlice data p s).length) := by
  obtain ⟨hreach, hlast⟩ := pageCount_bounds data.length s hs
  have hlen : ∀ p, (displaySlice data p s).length = min s (data.length - p * s) := by
    intro p
    rw [displaySlice_eq]
    simp
  refine ⟨?_, ?_, ?_, ?_, ?_⟩
  · rw [flatMap_displaySlice, List.take_of_length_le hreach]
  · intro p
    rw [hlen]
    exact Nat.min_le_left _ _
  · intro p hp
    rw [hlen]
    have hn : 0 < data.length := by
      rcases Nat.eq_zero_or_pos data.length with h0 | h0
      · rw [h0, pageCount, Nat.div_eq_of_lt (show 0 + s - 1 < s by omega)] at hp
        omega
      · exact h0
    have hmul : (p + 2) * s ≤ pageCount data.length s * s := Nat.mul_le_mul_right s hp
    have hlt := hlast hn
    rw [Nat.sub_mul, Nat.one_mul] at hlt
    have h2 : (p + 2) * s = p * s + s + s := by ring
    omega
  · intro p j hj
    rw [displaySlice_eq] at hj ⊢
    rw [List.length_take] at hj
    rw [List.getElem?_take_of_lt (by omega), List.getElem?_drop]
  · intro i hi
    have hmod := Nat.div_add_mod i s
    have hmodlt := Nat.mod_lt i hs
    have hmul : i / s * s = s * (i / s) := Nat.mul_comm _ _
    refine ⟨i / s, ⟨?_, by omega, ?_⟩, ?_⟩
    · rw [Nat.div_lt_iff_lt_mul hs]
      omega
    · rw [hlen]
      omega
    · rintro p ⟨_, hple, hplt⟩
      rw [hlen] at hplt
      symm
      apply Nat.div_eq_of_lt_le hple
      rw [Nat.succ_mul]
      omega

/-! ## `fetchData` -/

/-- Claim C7. When the user name or the token is empty, `fetchData` makes no
request and leaves the whole state as it was (datasets, loading, error, tab,
filters and page index), so the submit is a step from the state to itself. -/
theorem fetchData_empty_credentials (octokit : Octokit) (fuel : Nat) (s : State)
    (h : s.username = "" ∨ s.token = "") :
    fetchData octokit fuel s = some (s, []) ∧ step octokit fuel s .submit = some s := by
  have hf : fetchData octokit fuel s = some (s, []) := by
    unfold fetchData
    rw [if_pos h]
  exact ⟨hf, by simp [step, handleSubmit, hf]⟩

/-- Claim C6. In a submit with non-empty user name and token: if a page request
of the issues query is rejected (after `m` full pages), or the issues fetch
returns and a page request of the pull-request query is rejected, then
`fetchData` returns and the state after it has the issues and pull-request
datasets of before, the rejection's message as error, and loading false. When
both fetches return successfully `fetchData` returns with loading false, and
whenever `fetchData` returns, loading is false. -/
theorem fetchData_failure_keeps_datasets (octokit : Octokit) (s : State)
    (hu : s.username ≠ "") (ht : s.token ≠ "") :
    (∀ (m fuel : Nat) (pages : Nat → List Item) (e : String), m + 1 ≤ fuel →
      (∀ j, j < m → octokit s.token (issuesQuery s.username) (1 + j) = .ok (pages (1 + j)) ∧
        (pages (1 + j)).length = 100) →
      octokit s.token (issuesQuery s.username) (1 + m) = .error e →
      ∃ s', fetchData octokit fuel s =
          some (s', (List.range' 1 (m + 1)).map (Prod.mk (issuesQuery s.username))) ∧
        s'.issues = s.issues ∧ s'.prs = s.prs ∧ s'.error = e ∧ s'.loading = false) ∧
    (∀ (m fuel : Nat) (pages : Nat → List Item) (e : String) (issuesResponse : List Item)
        (log₁ : List Nat), m + 1 ≤ fuel →
      fetchAll (octokit s.token (issuesQuery s.username)) fuel =
        some (.ok issuesResponse, log₁) →
      (∀ j, j < m → octokit s.token (prsQuery s.username) (1 + j) = .ok (pages (1 + j)) ∧
        (pages (1 + j)).length = 100) →
      octokit s.token (prsQuery s.username) (1 + m) = .error e →
      ∃ s', fetchData octokit fuel s =
          some (s', log₁.map (Prod.mk (issuesQuery s.username)) ++
            (List.range' 1 (m + 1)).map (Prod.mk (prsQuery s.username))) ∧
        s'.issues = s.issues ∧ s'.prs = s.prs ∧ s'.error = e ∧ s'.loading = false) ∧
    (∀ (fuel : Nat) (issuesResponse prsResponse : List Item) (log₁ log₂ : List Nat),
      fetchAll (octokit s.token (issuesQuery s.username)) fuel =
        some (.ok issuesResponse, log₁) →
      fetchAll (octokit s.token (prsQuery s.username)) fuel = some (.ok prsResponse, log₂) →
      ∃ s', fetchData octokit fuel s =
          some (s', log₁.map (Prod.mk (issuesQuery s.username)) ++
            log₂.map (Prod.mk (prsQuery s.username))) ∧
        s'.loading = false) ∧
    (∀ (fuel : Nat) (s' : State) (log : List Request),
      fetchData octokit fuel s = some (s', log) → s'.loading = false) := by
  have hguard : ¬ (s.username = "" ∨ s.token = "") := by
    rintro (h | h)
    · exact hu h
    · exact ht h
  refine ⟨?_, ?_, ?_, ?_⟩
  · intro m fuel pages e hfuel hfull herr
    have hfetch := fetchAll_of_full_then_error _ pages m fuel e hfuel hfull herr
    refine ⟨{ s with error := e, loading := false }, ?_, rfl, rfl, rfl, rfl⟩
    unfold fetchData
    rw [if_neg hguard]
    simp only [hfetch]
  · intro m fuel pages e issuesResponse log₁ hfuel hissues hfull herr
    have hfetch := fetchAll_of_full_then_error _ pages m fuel e hfuel hfull herr
    refine ⟨{ s with error := e, loading := false }, ?_, rfl, rfl, rfl, rfl⟩
    unfold fetchData
    rw [if_neg hguard]
    simp only [hissues, hfetch]
  · intro fuel issuesResponse prsResponse log₁ log₂ hissues hprs
    refine ⟨{ s with
      issues := issuesResponse, prs := prsResponse, error := "", loading := false }, ?_, rfl⟩
    unfold fetchData
    rw [if_neg hguard]
    simp only [hissues, hprs]
  · intro fuel s' log hret
    unfold fetchData at hret
    rw [if_neg hguard] at hret
    simp only at hret
    split at hret
    · exact absurd hret (by simp)
    · simp only [Option.some.injEq, Prod.mk.injEq] at hret
      rw [← hret.1]
    · split at hret
      · exact absurd hret (by simp)
      · simp only [Option.some.injEq, Prod.mk.injEq] at hret
        rw [← hret.1]
      · simp only [Option.some.injEq, Prod.mk.injEq] at hret
        rw [← hret.1]

/-- Claim C8. When both fetches of a submit return successfully, `fetchData`
returns with the issues and pull-request datasets replaced by the fetched ones
(nothing of the earlier datasets is kept), the error cleared and loading false,
while the tab, both filter selectors and the page index are as before. -/
theorem fetchData_success_replaces_datasets (octokit : Octokit) (fuel : Nat) (s : State)
    (issuesResponse prsResponse : List Item) (log₁ log₂ : List Nat)
    (hu : s.username ≠ "") (ht : s.token ≠ "")
    (hissues : fetchAll (octokit s.token (issuesQuery s.username)) fuel =
      some (.ok issuesResponse, log₁))
    (hprs : fetchAll (octokit s.token (prsQuery s.username)) fuel =
      some (.ok prsResponse, log₂)) :
    ∃ s', fetchData octokit fuel s =
        some (s', log₁.map (Prod.mk (issuesQuery s.username)) ++
          log₂.map (Prod.mk (prsQuery s.username))) ∧
      s'.issues = issuesResponse ∧ s'.prs = prsResponse ∧
      s'.error = "" ∧ s'.loading = false ∧
      s'.tab = s.tab ∧ s'.issueFilter = s.issueFilter ∧ s'.prFilter = s.prFilter ∧
      s'.page = s.page := by
  have hguard : ¬ (s.username = "" ∨ s.token = "") := by
    rintro (h | h)
    · exact hu h
    · exact ht h
  refine ⟨{ s with
    issues := issuesResponse, prs := prsResponse, error := "", loading := false },
    ?_, rfl, rfl, rfl, rfl, rfl, rfl, rfl, rfl⟩
  unfold fetchData
  rw [if_neg hguard]
  simp only [hissues, hprs]

/-- Claim C10. Selecting a filter and changing the tab leave the page index as it
is, and the page index can point past the filtered data: after entering
credentials, fetching eleven issues, going to the second page and selecting the
filter `open`, the display slice is empty although the filtered dataset is
not. -/
theorem page_index_not_kept_in_range :
    (∀ (s : State) (value : String), (changeFilter s value).page = s.page) ∧
    (∀ (s : State) (newValue : Nat), (changeTab s newValue).page = s.page) ∧
    (∃ s, run sampleOctokit 1 initialState
        [.setUsername "octocat", .setToken "ghp_token", .submit, .changePage 1,
          .changeFilter "open"] = some s ∧
      displayData s = [] ∧ currentData s ≠ []) := by
  refine ⟨?_, fun s newValue => rfl, ?_⟩
  · intro s value
    unfold changeFilter
    split <;> rfl
  · refine ⟨{ initialState with
      username := "octocat", token := "ghp_token", issues := sampleIssues, prs := samplePrs,
      page := 1, issueFilter := "open" }, by decide, by decide, by decide⟩

/-! ## Instances on the sample data -/

/-- The theorem of C1 at `samplePages`: two full pages, then a page of 50. -/
theorem fetchAll_requests_until_first_short_page_witness :
    (∀ p, 1 ≤ p → (samplePages p).length ≤ 100) ∧
    (∃ p, 1 ≤ p ∧ (samplePages p).length < 100) ∧
    ∃ k, (1 ≤ k ∧ (samplePages k).length < 100 ∧
        ∀ j, 1 ≤ j → (samplePages j).length < 100 → k ≤ j) ∧
      ∀ fuel, k ≤ fuel →
        fetchAll (fun p => Except.ok (samplePages p)) fuel =
            some (.ok ((List.range' 1 k).flatMap samplePages), List.range' 1 k) ∧
          ((List.range' 1 k).flatMap samplePages).length =
            ((List.range' 1 k).map (fun p => (samplePages p).length)).sum :=
  have hmax : ∀ p, 1 ≤ p → (samplePages p).length ≤ 100 := by
    intro p _
    unfold samplePages
    split <;> simp
  have hshort : ∃ p, 1 ≤ p ∧ (samplePages p).length < 100 := ⟨3, by decide, by decide⟩
  ⟨hmax, hshort, fetchAll_requests_until_first_short_page samplePages hmax hshort⟩

/-- The theorem of C2 at a dataset of 250 items and three loop iterations. -/
theorem fetchAll_servePages_witness :
    (List.range 250).length / 100 + 1 ≤ 3 ∧
    fetchAll (fun p => Except.ok (servePages (List.range 250) p)) 3 =
      some (.ok (List.range 250), List.range' 1 ((List.range 250).length / 100 + 1)) :=
  ⟨by simp, (fetchAll_servePages (List.range 250) 3 (by simp)).1⟩

/-- The theorem of C3 at `samplePrs`: one merged, one closed, one open. The
merged pull request is returned by merged only. -/
theorem filterData_partition_witness :
    (∀ item ∈ samplePrs, item.WellFormed) ∧
    List.Perm (filterData samplePrs "open" ++ filterData samplePrs "closed" ++
      filterData samplePrs "merged") samplePrs ∧
    (sampleMergedPr ∉ filterData samplePrs "open" ∧
      sampleMergedPr ∉ filterData samplePrs "closed" ∧
      sampleMergedPr ∈ filterData samplePrs "merged") :=
  ⟨by decide, (filterData_partition samplePrs (by decide)).2.2.2.2.1,
    (filterData_partition samplePrs (by decide)).2.2.2.2.2 sampleMergedPr (by decide) rfl
      ⟨⟨some "2024-02-02T00:00:00Z"⟩, "2024-02-02T00:00:00Z", rfl, rfl, by decide⟩⟩

/-- The theorem of C4 at `samplePrs`: merged returns the merged pull request and
not the one closed without merge, closed the other way round. -/
theorem filterData_keeps_witness :
    (sampleMergedPr ∈ filterData samplePrs "merged" ∧
      sampleClosedPr ∉ filterData samplePrs "merged") ∧
    (sampleClosedPr ∈ filterData samplePrs "closed" ∧
      sampleMergedPr ∉ filterData samplePrs "closed") :=
  ⟨⟨((filterData_keeps samplePrs .merged).2.2.2.2.2.1 sampleMergedPr).2
      ⟨by decide, ⟨some "2024-02-02T00:00:00Z"⟩, "2024-02-02T00:00:00Z", rfl, rfl, by decide⟩,
    fun h => (((filterData_keeps samplePrs .merged).2.2.2.2.2.1 sampleClosedPr).1 h).2.elim
      (fun pr hpr => hpr.elim (fun t ht => by
        have hpreq : pr = ⟨none⟩ := (Option.some.inj ht.1).symm
        rw [hpreq] at ht
        exact absurd ht.2.1 (by simp)))⟩,
   ⟨((filterData_keeps samplePrs .merged).2.2.2.2.2.2.1 sampleClosedPr).2
      ⟨by decide, rfl, fun h => h.elim (fun pr hpr => hpr.elim (fun t ht => by
        have hpreq : pr = ⟨none⟩ := (Option.some.inj ht.1).symm
        rw [hpreq] at ht
        exact absurd ht.2.1 (by simp)))⟩,
    fun h => (((filterData_keeps samplePrs .merged).2.2.2.2.2.2.1 sampleMergedPr).1 h).2.2
      ⟨⟨some "2024-02-02T00:00:00Z"⟩, "2024-02-02T00:00:00Z", rfl, rfl, by decide⟩⟩⟩

/-- The theorem of C7 at an empty user name with a token entered. -/
theorem fetchData_empty_credentials_witness :
    ({ sampleState with username := "" }.username = "" ∨
        { sampleState with username := "" }.token = "") ∧
      fetchData sampleOctokit 1 { sampleState with username := "" } =
        some ({ sampleState with username := "" }, []) :=
  ⟨Or.inl rfl,
    (fetchData_empty_credentials sampleOctokit 1 { sampleState with username := "" }
      (Or.inl rfl)).1⟩

/-- The theorem of C6 at `failingOctokit`: the issues fetch returns and the
first page request of the pull-request query is rejected. -/
theorem fetchData_failure_keeps_datasets_witness :
    sampleState.username ≠ "" ∧ sampleState.token ≠ "" ∧
    ∃ s', fetchData failingOctokit 1 sampleState =
        some (s', [1].map (Prod.mk (issuesQuery sampleState.username)) ++
          (List.range' 1 (0 + 1)).map (Prod.mk (prsQuery sampleState.username))) ∧
      s'.issues = sampleState.issues ∧ s'.prs = sampleState.prs ∧
      s'.error = "API rate limit exceeded" ∧ s'.loading = false :=
  ⟨by decide, by decide,
    (fetchData_failure_keeps_datasets failingOctokit sampleState (by decide) (by decide)).2.1
      0 1 (fun _ => []) "API rate limit exceeded" sampleIssues [1] (by decide) rfl
      (fun j hj => absurd hj (Nat.not_lt_zero j)) rfl⟩

/-- The theorem of C8 at `sampleOctokit` and `sampleState`. -/
theorem fetchData_success_replaces_datasets_witness :
    sampleState.username ≠ "" ∧ sampleState.token ≠ "" ∧
    fetchAll (sampleOctokit sampleState.token (issuesQuery sampleState.username)) 1 =
      some (.ok sampleIssues, [1]) ∧
    fetchAll (sampleOctokit sampleState.token (prsQuery sampleState.username)) 1 =
      some (.ok samplePrs, [1]) ∧
    ∃ s', fetchData sampleOctokit 1 sampleState =
        some (s', [1].map (Prod.mk (issuesQuery sampleState.username)) ++
          [1].map (Prod.mk (prsQuery sampleState.username))) ∧
      s'.issues = sampleIssues ∧ s'.prs = samplePrs ∧
      s'.error = "" ∧ s'.loading = false ∧
      s'.tab = sampleState.tab ∧ s'.issueFilter = sampleState.issueFilter ∧
      s'.prFilter = sampleState.prFilter ∧ s'.page = sampleState.page :=
  ⟨by decide, by decide, rfl, rfl,
    fetchData_success_replaces_datasets sampleOctokit 1 sampleState sampleIssues samplePrs
      [1] [1] (by decide) (by decide) rfl rfl⟩

/-- The theorem of C9 at the eleven sample issues, ten to a page. -/
theorem displaySlice_pages_cover_witness :
    0 < ROWS_PER_PAGE ∧
    (List.range (pageCount sampleIssues.length ROWS_PER_PAGE)).flatMap
      (fun p => displaySlice sampleIssues p ROWS_PER_PAGE) = sampleIssues :=
  ⟨by decide, (displaySlice_pages_cover sampleIssues ROWS_PER_PAGE (by decide)).1⟩

end GithubTracker
